import Mathlib

/-!
Shallow embedding of the NeuralNexus search-augmented answer pipeline
(`src/web_search.py`, `src/llm_handler.py`, `src/roles/fact_checker.py`,
`src/roles/research_assistant.py`) together with theorems settling the
frozen claims about it.

Conventions of the embedding:
* Python `float` arithmetic is modelled by exact arithmetic (`ℚ` where the
  code stays in rationals, `ℝ` where `statistics.stdev` takes a square root).
* Wall-clock samples (`time.time()` differences) and the wire responses of
  the remote search provider are parameters of the embedded functions.
* Python string operations are re-implemented structurally over `List Char`
  so that every definition evaluates by kernel reduction.
-/

namespace NeuralNexus

/-! ## Python string primitives -/

/-- Python whitespace (`str.split()` with no argument, `str.strip`, `\s` in
regexes): space, tab, newline, carriage return, vertical tab, form feed. -/
def isPySpace (c : Char) : Bool :=
  c = ' ' || c = '\t' || c = '\n' || c = '\r' || c = '\x0b' || c = '\x0c'

/-- Split a character list at every character satisfying `p`, keeping empty
pieces, as Python `str.split(sep)` does for a one-character separator. -/
def splitOnPred (p : Char → Bool) : List Char → List (List Char)
  | [] => [[]]
  | a :: rest =>
    let r := splitOnPred p rest
    if p a then [] :: r
    else
      match r with
      | [] => [[a]]
      | h :: t => (a :: h) :: t

/-- Python `s.split(c)` for a single-character separator `c`. -/
def pySplitOnChar (c : Char) (s : String) : List String :=
  (splitOnPred (fun a => a = c) s.data).map String.mk

/-- Python `s.split()` with no argument: split on whitespace runs and drop
empty pieces. -/
def pySplitWs (s : String) : List String :=
  ((splitOnPred isPySpace s.data).filter (fun l => l ≠ [])).map String.mk

/-- Python `s.strip()`: remove leading and trailing whitespace. -/
def pyStrip (s : String) : String :=
  String.mk (((s.data.dropWhile isPySpace).reverse.dropWhile isPySpace).reverse)

/-- Python `sep.join(items)`. -/
def joinSep (sep : String) : List String → String
  | [] => ""
  | [x] => x
  | x :: y :: rest => x ++ sep ++ joinSep sep (y :: rest)

/-- Boolean infix test on character lists. -/
def listIsInfixOf (needle : List Char) : List Char → Bool
  | [] => needle.isEmpty
  | a :: rest => needle.isPrefixOf (a :: rest) || listIsInfixOf needle rest

/-- Python `needle in hay` substring test. -/
def isSubstr (needle hay : String) : Bool :=
  listIsInfixOf needle.data hay.data

/-- Python `s.startswith(pre)`. -/
def pyStartsWith (pre s : String) : Bool :=
  pre.data.isPrefixOf s.data

/-- Python `s.lower()` (ASCII case mapping; the repository only lowercases
ASCII header / query text). -/
def pyLower (s : String) : String :=
  String.mk (s.data.map Char.toLower)

/-- Python `s.upper()` (ASCII case mapping). -/
def pyUpper (s : String) : String :=
  String.mk (s.data.map Char.toUpper)

/-- One step of Python `s.replace(pat, repl)` (non-overlapping, left to
right), driven by a fuel argument so the recursion is structural.  Fuel
`l.length` is always enough because every step consumes at least one
character of `l` when `pat` is nonempty. -/
def replaceFuel (pat repl : List Char) : ℕ → List Char → List Char
  | 0, l => l
  | _ + 1, [] => []
  | fuel + 1, a :: rest =>
    if pat ≠ [] && pat.isPrefixOf (a :: rest) then
      repl ++ replaceFuel pat repl fuel (rest.drop (pat.length - 1))
    else
      a :: replaceFuel pat repl fuel rest

/-- Python `s.replace(pat, repl)` for a nonempty pattern (every pattern used
by the repository is nonempty). -/
def pyReplace (s pat repl : String) : String :=
  String.mk (replaceFuel pat.data repl.data s.data.length s.data)

/-! ## `src/web_search.py`: data model -/

/-- Embeds `SearchMetrics` dataclass (`web_search.py`): metrics for search
performance tracking. -/
structure SearchMetrics where
  total_time : ℚ
  cache_hit : Bool
  results_count : ℕ
  error : Option String
deriving DecidableEq

/-- Embeds `SearchResult` pydantic model (`web_search.py`). -/
structure SearchResult where
  title : String
  url : String
  description : String
  query_time : ℚ
  relevance_score : ℚ
deriving DecidableEq

/-- One raw result of the search provider response body (`web.results[]`):
the fields `title`, `url`, `description` are accessed directly by `search`,
`date_published` through `.get` with a default. -/
structure RawResult where
  title : String
  url : String
  description : String
  date_published : Option Int
deriving DecidableEq

/-- The provider JSON body, reduced to the part the code reads:
`results.get('web', {}).get('results', [])` (an absent key behaves as the
empty list). -/
structure BraveResponse where
  web_results : List RawResult
deriving DecidableEq

/-- A source-signal dict as built in `search` and consumed by
`assess_source_quality`; `Option` fields model `dict.get` with a default. -/
structure SourceDict where
  domain : Option String
  publication_year : Option Int
  type : Option String
deriving DecidableEq

/-! ## `src/web_search.py`: pure scoring functions -/

/-- Embeds `WebSearch._sanitize_query`: collapse all whitespace runs to single
spaces (`' '.join(query.split())`). -/
def sanitize_query (query : String) : String :=
  joinSep " " (pySplitWs query)

/-- Embeds `WebSearch._get_cached_results`: the cache wrapper returns `None`
unconditionally (the actual storage is not implemented). -/
def get_cached_results (_query : String) : Option (List SearchResult) :=
  none

/-- Embeds `WebSearch._calculate_relevance`.  The Python argument is a `set`;
it is modelled as a list whose order stands for the (unspecified) hash-set
iteration order, with `List.dedup` supplying the set semantics of the
lower-casing comprehension. -/
def calculate_relevance (result : RawResult) (query_terms : List String) : ℚ :=
  let text := pyLower (result.title ++ " " ++ result.description)
  let query_terms_lower := (query_terms.map pyLower).dedup
  let term_count : ℕ := (query_terms_lower.filter (fun t => isSubstr t text)).length
  let relevance : ℚ := if query_terms_lower ≠ [] then (term_count : ℚ) / query_terms_lower.length else 0
  let relevance : ℚ := if isSubstr (joinSep " " query_terms_lower) text then relevance * 1.5 else relevance
  min relevance 1

/-- Domain-reputation table of `WebSearch.assess_source_quality`
(`reputable_domains.get(domain_ext, 0.3)`). -/
def reputableDomainScore (ext : String) : ℚ :=
  if ext = "edu" then 0.9
  else if ext = "gov" then 0.9
  else if ext = "org" then 0.7
  else if ext = "com" then 0.5
  else 0.3

/-- Source-type table of `WebSearch.assess_source_quality`
(`source_types.get(source_type, 0.2)`). -/
def sourceTypeScore (t : String) : ℚ :=
  if t = "academic" then 0.9
  else if t = "news" then 0.6
  else if t = "blog" then 0.4
  else if t = "forum" then 0.3
  else 0.2

/-- Embeds `WebSearch.assess_source_quality`.  `currentYear` stands for
`datetime.now().year`. -/
def assess_source_quality (currentYear : Int) (source : SourceDict) : ℚ :=
  let domain := source.domain.getD ""
  let domain_ext := (pySplitOnChar '.' domain).getLastD ""
  let q1 : ℚ := reputableDomainScore domain_ext
  let pub_year := source.publication_year.getD currentYear
  let years_old : Int := currentYear - pub_year
  let freshness_score : ℚ := max 0 (1 - (years_old : ℚ) / 10)
  let q2 : ℚ := q1 + freshness_score * 0.3
  let source_type := source.type.getD "unknown"
  let q3 : ℚ := q2 + sourceTypeScore source_type
  min 1 (q3 / 2)

/-! ## `src/web_search.py`: confidence aggregation

`statistics.stdev` takes a square root, so this part of the embedding lives
in `ℝ`. -/

/-- Embeds `statistics.stdev` (Python standard library): square root of the sample
variance `Σ (x - mean)² / (n - 1)`. -/
noncomputable def stdevR (l : List ℝ) : ℝ :=
  Real.sqrt ((l.map (fun x => (x - l.sum / l.length) ^ 2)).sum / ((l.length : ℝ) - 1))

/-- Embeds `WebSearch.calculate_confidence`. -/
noncomputable def calculate_confidence (currentYear : Int) :
    List SourceDict → ℝ × List String
  | [] => (0, ["No sources found"])
  | s :: rest =>
    let sources := s :: rest
    let source_scores : List ℝ :=
      sources.map (fun src => ((assess_source_quality currentYear src : ℚ) : ℝ))
    let avg_score : ℝ := source_scores.sum / source_scores.length
    let consistency : ℝ :=
      if 1 < source_scores.length then 1 - stdevR source_scores else 0.5
    let num_sources_score : ℝ := min 1 ((sources.length : ℝ) / 5)
    let confidence_score : ℝ :=
      avg_score * 0.4 + consistency * 0.3 + num_sources_score * 0.3
    let reasons : List String :=
      (if 0.7 < avg_score then ["High-quality sources found"] else []) ++
      (if 0.7 < consistency then ["Consistent information across sources"] else []) ++
      (if 0.6 < num_sources_score then
        ["Multiple sources (" ++ toString sources.length ++ ") corroborate the information"]
      else [])
    (confidence_score, reasons)

/-! ## `src/web_search.py`: the retried HTTP request -/

/-- Outcome of one upstream HTTP attempt, as observed by
`WebSearch._make_request`: a JSON body, a `TimeoutException`, or an
`HTTPError` carrying a status code. -/
inductive ReqOutcome where
  | ok (payload : BraveResponse)
  | timeout
  | httpError (status : ℕ)
deriving DecidableEq

/-- An exception propagating out of `_make_request`. -/
inductive ReqError where
  | timeoutErr
  | httpErr (status : ℕ)
deriving DecidableEq

/-- How a call to `_make_request` ends: a returned payload, a raised
exception, or the `for` loop running out of attempts so that the function
implicitly returns `None`. -/
inductive ReqResult where
  | success (payload : BraveResponse)
  | raised (e : ReqError)
  | noneReturned
deriving DecidableEq

/-- Observable trace of one `_make_request` call: how it ended, the backoff
sleeps issued in order (in seconds), and how many HTTP attempts were made. -/
structure RequestTrace where
  result : ReqResult
  sleeps : List ℕ
  attempts : ℕ
deriving DecidableEq

/-- The `for attempt in range(self.max_retries)` loop of
`WebSearch._make_request`; `resp attempt` is the outcome of the attempt with
that index, and `fuel` counts the loop iterations still allowed. -/
def requestLoop (resp : ℕ → ReqOutcome) (maxRetries : ℕ) : ℕ → ℕ → RequestTrace
  | _, 0 => ⟨.noneReturned, [], 0⟩
  | a, fuel + 1 =>
    match resp a with
    | .ok p => ⟨.success p, [], 1⟩
    | .timeout =>
      if a = maxRetries - 1 then ⟨.raised .timeoutErr, [], 1⟩
      else
        let r := requestLoop resp maxRetries (a + 1) fuel
        ⟨r.result, 1 * (a + 1) :: r.sleeps, r.attempts + 1⟩
    | .httpError s =>
      if s = 429 then
        let r := requestLoop resp maxRetries (a + 1) fuel
        ⟨r.result, 2 * (a + 1) :: r.sleeps, r.attempts + 1⟩
      else ⟨.raised (.httpErr s), [], 1⟩

/-- Embeds `WebSearch._make_request` with retry logic (the semaphore and the
concrete HTTP client are environment effects outside the embedding). -/
def make_request (maxRetries : ℕ) (resp : ℕ → ReqOutcome) : RequestTrace :=
  requestLoop resp maxRetries 0 maxRetries

/-! ## `src/web_search.py`: query enhancement and `search` -/

/-- The `modifiers` table of `WebSearch._enhance_query`, in insertion
order; only the term lists matter because the keys are never read. -/
def modifierTable : List (List String) :=
  [["fact check", "verify", "evidence"],
   ["research paper", "academic", "study"],
   ["technical documentation", "api", "implementation"],
   ["news", "recent", "current events"],
   ["analysis", "insights", "expert opinion"]]

/-- Embeds `WebSearch._enhance_query`. -/
def enhance_query (query role_context : String) : String :=
  let role_terms := pyLower role_context
  let query_modifiers : List String :=
    (modifierTable.filter (fun terms => terms.any (fun t => isSubstr t role_terms))).map
      (fun terms => terms.headD "")
  if query_modifiers ≠ [] then joinSep " " query_modifiers ++ " " ++ query else query

/-- Failure description recorded in `SearchMetrics.error` (`str(e)` of the
swallowed exception; the exact provider wording is abstracted, only the
shape is kept). -/
def failureDescription : ReqError → String
  | .timeoutErr => "Request timed out"
  | .httpErr s => "HTTP error " ++ toString s

/-- The dict access `result['url'].split('/')[2]` used to build a source
signal; `none` models the `IndexError` raised when the URL has no host
segment. -/
def urlHostSegment (url : String) : Option String :=
  (pySplitOnChar '/' url).get? 2

/-- The tuple returned by every failure path of `WebSearch.search`. -/
noncomputable def searchFailure (elapsedTotal : ℚ) (msg : String) :
    List SearchResult × SearchMetrics × ℝ × List String :=
  ([], ⟨elapsedTotal, false, 0, some msg⟩, 0, ["No confidence assessment"])

/-- Embeds `WebSearch.search`.  Parameters standing for the environment:
`currentYear` for `datetime.now().year`, `resp` for the upstream HTTP
outcomes consumed by `_make_request`, `qtime i` for the
`time.time() - start_time` sample taken while building the `i`-th result,
and `elapsedTotal` for the sample taken when `metrics.total_time` is set.
The `max_retries` argument is `2` for the client built by
`WebSearch.__init__`.  Every exception inside the `try` body lands in the
single `except` clause, embedded here as the explicit failure branches. -/
noncomputable def search (query role_context : String) (currentYear : Int)
    (max_retries : ℕ) (resp : ℕ → ReqOutcome) (qtime : ℕ → ℚ)
    (elapsedTotal : ℚ) : List SearchResult × SearchMetrics × ℝ × List String :=
  match get_cached_results query with
  | some cached =>
    (cached, ⟨elapsedTotal, true, cached.length, none⟩, 0, ["No confidence assessment"])
  | none =>
    let enhanced_query := enhance_query query role_context
    let sanitized_query := sanitize_query enhanced_query
    let query_terms : List String := pySplitWs sanitized_query
    match (make_request max_retries resp).result with
    | .raised e => searchFailure elapsedTotal (failureDescription e)
    | .noneReturned =>
      -- `results` is `None`, so `results.get('web', {})` raises an
      -- `AttributeError`, swallowed by the `except` clause.
      searchFailure elapsedTotal "AttributeError: NoneType object has no attribute get"
    | .success payload =>
      if payload.web_results.all (fun r => (urlHostSegment r.url).isSome) then
        let search_results : List SearchResult :=
          payload.web_results.enum.map (fun p =>
            ⟨p.2.title, p.2.url, p.2.description, qtime p.1,
              calculate_relevance p.2 query_terms⟩)
        let sources : List SourceDict :=
          payload.web_results.map (fun r =>
            ⟨some ((urlHostSegment r.url).getD ""),
             some (r.date_published.getD currentYear), some "unknown"⟩)
        let sorted := search_results.mergeSort
          (fun a b => decide (b.relevance_score ≤ a.relevance_score))
        let metrics : SearchMetrics := ⟨elapsedTotal, false, sorted.length, none⟩
        let conf := calculate_confidence currentYear sources
        (sorted, metrics, conf.1, conf.2)
      else
        -- building a source signal raised `IndexError: list index out of range`
        searchFailure elapsedTotal "IndexError: list index out of range"

/-! ## `src/llm_handler.py` and `WebSearch.__init__`: construction -/

/-- A process environment (`os.getenv`), after `load_dotenv()` has run. -/
def Env : Type := String → Option String

/-- State held by a constructed `WebSearch` instance (besides the fixed
timeout 10.0, `max_retries = 2` and concurrency limit 3). -/
structure WebSearchState where
  brave_api_key : String
deriving DecidableEq

/-- Embeds `WebSearch.__init__`: reads `BRAVE_API_KEY` and raises `ValueError`
when the key is falsy (`if not self.brave_api_key`), i.e. absent or the
empty string. -/
def WebSearch.init (env : Env) : Except String WebSearchState :=
  match env "BRAVE_API_KEY" with
  | none => .error "BRAVE_API_KEY environment variable is required"
  | some k =>
    if k = "" then .error "BRAVE_API_KEY environment variable is required"
    else .ok ⟨k⟩

/-- Models the external `AsyncOpenAI` client constructor (openai-python,
not repository code), restricted to its documented api-key resolution: an
explicit `api_key=None` falls back to the `OPENAI_API_KEY` environment
variable, and the constructor raises `OpenAIError` only when that is also
absent; any provided string (even empty) is accepted. -/
def asyncOpenAIInit (env : Env) (api_key : Option String) : Except String String :=
  match api_key with
  | some k => .ok k
  | none =>
    match env "OPENAI_API_KEY" with
    | some k => .ok k
    | none => .error "The api_key client option must be set"

/-- State held by a constructed `LLMHandler`. -/
structure LLMHandlerState where
  api_key : String
  model : String
deriving DecidableEq

/-- Embeds `LLMHandler.__init__`: builds the `AsyncOpenAI` client with
`api_key=os.getenv('GLHF_API_KEY')` — performing no credential check of its
own — and resolves the model identifier with its default. -/
def LLMHandler.init (env : Env) : Except String LLMHandlerState :=
  match asyncOpenAIInit env (env "GLHF_API_KEY") with
  | .error e => .error e
  | .ok key =>
    .ok ⟨key, (env "LLM_MODEL").getD "hf:meta-llama/Llama-3.3-70B-Instruct"⟩

/-! ## `src/roles/fact_checker.py`: `parse_llm_response` -/

/-- The `sections` dict built by `fact_checker.parse_llm_response`. -/
structure FCSections where
  verdict : String
  explanation : String
  context : String
  references : List String
  confidence_level : String
  opinion_warning : String
deriving DecidableEq

/-- The initial `sections` dict of `parse_llm_response`. -/
def initSections : FCSections :=
  ⟨"", "", "", [], "", ""⟩

/-- Loop state of `parse_llm_response`: the sections dict, the
`current_section` marker and the accumulated `section_content` lines. -/
structure FCParseState where
  sections : FCSections
  current_section : Option String
  section_content : List String

/-- One iteration of the `for line in response.split('\n')` loop of
`fact_checker.parse_llm_response`. -/
def fcParseStep (st : FCParseState) (rawLine : String) : FCParseState :=
  let line := pyStrip rawLine
  if line = "" then st
  else
    let st1 : FCParseState :=
      if pyStartsWith "VERDICT:" line then
        ⟨{ st.sections with verdict := pyStrip (pyReplace line "VERDICT:" "") },
          some "verdict", st.section_content⟩
      else if pyStartsWith "EXPLANATION:" line then
        ⟨st.sections, some "explanation", []⟩
      else if pyStartsWith "CONTEXT:" line then
        ⟨st.sections, some "context", []⟩
      else if pyStartsWith "REFERENCES:" line then
        ⟨st.sections, some "references", []⟩
      else if pyStartsWith "CONFIDENCE LEVEL:" line then
        ⟨{ st.sections with confidence_level := pyStrip (pyReplace line "CONFIDENCE LEVEL:" "") },
          some "confidence_level", st.section_content⟩
      else if pyStartsWith "OPINION WARNING:" line then
        ⟨{ st.sections with opinion_warning := pyStrip (pyReplace line "OPINION WARNING:" "") },
          some "opinion_warning", st.section_content⟩
      else
        match st.current_section with
        | some _ => ⟨st.sections, st.current_section, st.section_content ++ [line]⟩
        | none => st
    if st1.section_content ≠ [] then
      if st1.current_section = some "explanation" then
        ⟨{ st1.sections with explanation := joinSep "\n" st1.section_content },
          st1.current_section, st1.section_content⟩
      else if st1.current_section = some "context" then
        ⟨{ st1.sections with context := joinSep "\n" st1.section_content },
          st1.current_section, st1.section_content⟩
      else if st1.current_section = some "references" then
        ⟨{ st1.sections with references := st1.section_content },
          st1.current_section, st1.section_content⟩
      else st1
    else st1

/-- Embeds `fact_checker.parse_llm_response`. -/
def parse_llm_response (response : String) : FCSections :=
  ((pySplitOnChar '\n' response).foldl fcParseStep ⟨initSections, none, []⟩).sections

/-! ## `src/roles/fact_checker.py`: the regex extraction of `format_response`

The patterns have the shape `LIT:\s*(.+?)(?=\n|$)` (for `REFERENCES:` with
`re.DOTALL`).  Their `re.search` semantics: at the leftmost occurrence of
the literal where the rest of the pattern can complete, the greedy `\s*`
first consumes the maximal whitespace run and backs off one character at a
time, and the lazy `(.+?)` then captures the shortest nonempty run of
characters allowed for `.` that ends right before a `'\n'` or at the end of
the input. -/

/-- The lazy capture `(.+?)(?=\n|$)` without `re.DOTALL` (`.` does not
match a newline): the maximal newline-free run starting here, if nonempty. -/
def lazyCapture (rest : List Char) : Option (List Char) :=
  match rest with
  | [] => none
  | c :: _ => if c = '\n' then none else some (rest.takeWhile (fun a => a ≠ '\n'))

/-- The lazy capture `(.+?)(?=\n|$)` with `re.DOTALL` (`.` matches any
character): one character, then the following newline-free run. -/
def lazyCaptureDotall (rest : List Char) : Option (List Char) :=
  match rest with
  | [] => none
  | c :: cs => some (c :: cs.takeWhile (fun a => a ≠ '\n'))

/-- Backtracking of the greedy `\s*`: try consuming `k` whitespace
characters, then `k - 1`, ... down to `0`, taking the first capture that
completes. -/
def wsBacktrack (cap : List Char → Option (List Char)) (after : List Char) :
    ℕ → Option (List Char)
  | 0 => cap after
  | k + 1 =>
    match cap (after.drop (k + 1)) with
    | some c => some c
    | none => wsBacktrack cap after k

/-- Try to match `lit` followed by `\s*` and the lazy capture at the head
of `text`. -/
def matchHeaderAt (cap : List Char → Option (List Char)) (lit : List Char)
    (text : List Char) : Option (List Char) :=
  if lit.isPrefixOf text then
    let after := text.drop lit.length
    wsBacktrack cap after ((after.takeWhile isPySpace).length)
  else none

/-- Scan for the leftmost position where the whole pattern matches
(`re.search`). -/
def scanHeader (cap : List Char → Option (List Char)) (lit : List Char) :
    List Char → Option (List Char)
  | [] => none
  | c :: rest =>
    match matchHeaderAt cap lit (c :: rest) with
    | some r => some r
    | none => scanHeader cap lit rest

/-- Embeds `re.search(lit + r':\s*(.+?)(?=\n|$)', text)`, returning `group(1)`. -/
def reSearchHeader (lit text : String) : Option String :=
  (scanHeader lazyCapture lit.data text.data).map String.mk

/-- The same with `re.DOTALL` (used for `REFERENCES:`). -/
def reSearchHeaderDotall (lit text : String) : Option String :=
  (scanHeader lazyCaptureDotall lit.data text.data).map String.mk

/-- Try to match `- (https?://\S+)` at the head of `text`, returning the
capture group (the scheme tried greedily first, then without the `s`; the
greedy `\S+` takes the maximal nonempty run of non-whitespace). -/
def matchUrlAt (text : List Char) : Option (List Char) :=
  if ("- https://".data).isPrefixOf text then
    let run := (text.drop 10).takeWhile (fun a => !isPySpace a)
    if run ≠ [] then some ("https://".data ++ run) else none
  else if ("- http://".data).isPrefixOf text then
    let run := (text.drop 9).takeWhile (fun a => !isPySpace a)
    if run ≠ [] then some ("http://".data ++ run) else none
  else none

/-- Scan for the leftmost match of the URL pattern. -/
def scanUrl : List Char → Option (List Char)
  | [] => none
  | c :: rest =>
    match matchUrlAt (c :: rest) with
    | some r => some r
    | none => scanUrl rest

/-- Embeds `re.search(r'- (https?://\S+)', text)`, returning `group(1)`. -/
def reSearchUrl (text : String) : Option String :=
  (scanUrl text.data).map String.mk

/-! ## `src/roles/fact_checker.py`: `format_response` -/

/-- One iteration of the reference-rendering loop of `format_response`
(`i` is the 1-based `enumerate` index, counting skipped blank lines too). -/
def formatReference (i : ℕ) (rawRef : String) : List String :=
  let ref := pyStrip rawRef
  if ref = "" then []
  else
    match reSearchUrl ref with
    | some url =>
      let source_name := pyStrip ((pySplitOnChar '-' ref).headD "")
      [toString i ++ ". " ++ source_name ++ " - <a href=\"" ++ url ++
        "\" target=\"_blank\">" ++ url ++ "</a><br>"]
    | none => [toString i ++ ". " ++ ref ++ "<br>"]

/-- Embeds `fact_checker.format_response`.  The Python body is wrapped in
`try/except` with the fallback `f"<pre>{raw_response}</pre>"`; for a string
argument none of the body's operations can raise, so the embedding is the
body itself and the fallback branch is unreachable. -/
def format_response (raw_response : String) : String :=
  let verdict_match := reSearchHeader "VERDICT:" raw_response
  let _confidence_match := reSearchHeader "CONFIDENCE LEVEL:" raw_response
  let explanation_match := reSearchHeader "EXPLANATION:" raw_response
  let context_match := reSearchHeader "CONTEXT:" raw_response
  let references_match := reSearchHeaderDotall "REFERENCES:" raw_response
  let verdict := match verdict_match with
    | some v => pyStrip v
    | none => "UNKNOWN"
  let part_error : List String :=
    if pyUpper verdict = "FALSE" then
      ["<div class=\"error-message\" style=\"display: flex; align-items: center; gap: 8px; margin-bottom: 16px;\"><span style=\"color: #FF4B4B; font-size: 24px;\">⚠</span><span style=\"color: #FF4B4B;\">" ++
        ((pySplitOnChar '\n' raw_response).headD "") ++ "</span></div>"]
    else []
  let part_verdict : List String :=
    ["<div style=\"margin: 16px 0;\"><strong>" ++ verdict ++ "</strong></div>"]
  let part_explanation : List String :=
    match explanation_match with
    | some e =>
      ["<h2 style=\"margin: 24px 0 16px;\">Explanation</h2>",
       "<div style=\"margin-bottom: 16px;\">" ++ pyStrip e ++ "</div>"]
    | none => []
  let part_context : List String :=
    match context_match with
    | some c =>
      ["<h2 style=\"margin: 24px 0 16px;\">Additional Context</h2>",
       "<div style=\"margin-bottom: 16px;\">" ++ pyStrip c ++ "</div>"]
    | none => []
  let part_references : List String :=
    match references_match with
    | some r =>
      "<h2 style=\"margin: 24px 0 16px;\">References</h2>" ::
        ((pySplitOnChar '\n' (pyStrip r)).enum.flatMap
          (fun p => formatReference (p.1 + 1) p.2))
    | none => []
  joinSep "\n"
    (part_error ++ part_verdict ++ part_explanation ++ part_context ++ part_references)

/-! ## Evidence assembly in `process_query`

`fact_checker.process_query` and `research_assistant.process_query` contain
the identical evidence-deduplication loop (a `seen_urls` set threaded
through the search results in order); it is embedded once. -/

/-- An `evidence_points` entry. -/
structure EvidencePoint where
  title : String
  url : String
  description : String
deriving DecidableEq

/-- The evidence loop with its `seen_urls` accumulator (set membership
modelled by list membership). -/
def evidenceLoop : List SearchResult → List String → List EvidencePoint
  | [], _ => []
  | r :: rest, seen =>
    if r.url ∈ seen then evidenceLoop rest seen
    else
      ⟨pyReplace r.title " - Wikipedia" "", r.url, r.description⟩ ::
        evidenceLoop rest (r.url :: seen)

/-- The `evidence_points` list assembled by a role's `process_query` from
its search results. -/
def process_query_evidence (search_results : List SearchResult) : List EvidencePoint :=
  evidenceLoop search_results []

/-- Modelled from the spec: "a deduplicated (by URL, first-seen order)
evidence list" — the reference first-seen deduplication the evidence list
is compared against. -/
def firstSeenDedupAux : List String → List String → List String
  | [], _ => []
  | u :: rest, seen =>
    if u ∈ seen then firstSeenDedupAux rest seen
    else u :: firstSeenDedupAux rest (u :: seen)

/-- First-seen-order deduplication of a list of URLs, following the spec's
words. -/
def firstSeenDedup (urls : List String) : List String :=
  firstSeenDedupAux urls []

/-! ## Helper lemmas -/

lemma reputableDomainScore_bounds (ext : String) :
    0.3 ≤ reputableDomainScore ext ∧ reputableDomainScore ext ≤ 0.9 := by
  unfold reputableDomainScore
  split_ifs <;> norm_num

lemma sourceTypeScore_bounds (t : String) :
    0.2 ≤ sourceTypeScore t ∧ sourceTypeScore t ≤ 0.9 := by
  unfold sourceTypeScore
  split_ifs <;> norm_num

/-- Every per-source quality score computed by `assess_source_quality` lies
in `[0, 1]` (in fact in `[0.25, 1]`). -/
lemma assess_source_quality_bounds (currentYear : Int) (source : SourceDict) :
    0 ≤ assess_source_quality currentYear source ∧
      assess_source_quality currentYear source ≤ 1 := by
  simp only [assess_source_quality]
  have h1 := reputableDomainScore_bounds ((pySplitOnChar '.' (source.domain.getD "")).getLastD "")
  have h2 := sourceTypeScore_bounds (source.type.getD "unknown")
  have h3 : (0:ℚ) ≤ max 0 (1 - ((currentYear - source.publication_year.getD currentYear : Int) : ℚ) / 10) :=
    le_max_left _ _
  constructor
  · apply le_min (by norm_num)
    have : (0:ℚ) ≤ (max 0 (1 - ((currentYear - source.publication_year.getD currentYear : Int) : ℚ) / 10)) * 0.3 := by
      apply mul_nonneg h3 (by norm_num)
    linarith [h1.1, h2.1]
  · exact min_le_left _ _

/-! ## Claim theorems -/

/-- Claim C9: for every source signal — any domain string, any integer
publication year, any source type, with unknown TLD and unknown type
falling back to defaults rather than erroring — the quality score
`assess_source_quality(signal)` lies in `[0, 1]`. -/
theorem c9_source_quality_in_unit_interval (currentYear : Int) (source : SourceDict) :
    0 ≤ assess_source_quality currentYear source ∧
      assess_source_quality currentYear source ≤ 1 :=
  assess_source_quality_bounds currentYear source

/-- Claim C10: whenever no (lower-cased) query term occurs as a substring
of the lower-cased title+description of a result, the relevance score is 0;
the empty query-term set satisfies the hypothesis vacuously, so its
relevance is 0 in particular. -/
theorem c10_relevance_zero_when_no_term_occurs (result : RawResult)
    (query_terms : List String)
    (h : ∀ t ∈ query_terms,
      isSubstr (pyLower t) (pyLower (result.title ++ " " ++ result.description)) = false) :
    calculate_relevance result query_terms = 0 := by
  simp only [calculate_relevance]
  have hfilter :
      ((query_terms.map pyLower).dedup.filter
        (fun t => isSubstr t (pyLower (result.title ++ " " ++ result.description)))) = [] := by
    apply List.filter_eq_nil_iff.2
    intro t ht
    obtain ⟨t0, ht0, rfl⟩ := List.mem_map.1 (List.mem_dedup.1 ht)
    simp [h t0 ht0]
  rw [hfilter]
  simp only [List.length_nil, Nat.cast_zero, zero_div]
  split_ifs <;> norm_num

/-- Witness for C10 at a concrete result and a nonempty term set. -/
theorem c10_witness :
    calculate_relevance ⟨"Alpha Title", "http://x/y", "Beta Description", none⟩ ["zzz", "qqq"] = 0 :=
  c10_relevance_zero_when_no_term_occurs _ _ (by decide)

/-- Claim C6: `_get_cached_results` returns `None` unconditionally, so
`search` never takes its cache-hit branch and the metrics of every call
have `cache_hit = false`. -/
theorem c6_cache_hit_unreachable (query role_context : String) (currentYear : Int)
    (max_retries : ℕ) (resp : ℕ → ReqOutcome) (qtime : ℕ → ℚ) (elapsedTotal : ℚ) :
    get_cached_results query = none ∧
      (search query role_context currentYear max_retries resp qtime elapsedTotal).2.1.cache_hit
        = false := by
  refine ⟨rfl, ?_⟩
  simp only [search, get_cached_results]
  cases (make_request max_retries resp).result with
  | success payload =>
    by_cases hall : payload.web_results.all (fun r => (urlHostSegment r.url).isSome)
    · simp [hall]
    · simp [hall, searchFailure]
  | raised e => simp [searchFailure]
  | noneReturned => simp [searchFailure]

/-- The environment witnessing that `LLMHandler` construction succeeds with
the LLM-provider key missing: no `GLHF_API_KEY`, but an `OPENAI_API_KEY`
for the external client to fall back to. -/
def envOnlyOpenAI : Env :=
  fun k => if k = "OPENAI_API_KEY" then some "sk-test" else none

/-- Counterexample to claim C4: in an environment with `GLHF_API_KEY`
absent (but `OPENAI_API_KEY` present), `LLMHandler.__init__` succeeds —
construction does not raise on the missing LLM-provider credential. -/
theorem c4_counterexample :
    envOnlyOpenAI "GLHF_API_KEY" = none ∧
      (LLMHandler.init envOnlyOpenAI).isOk = true := by
  exact ⟨rfl, rfl⟩

/-- Claim C4 as amended: `WebSearch.__init__` raises exactly when
`BRAVE_API_KEY` is absent or empty; `LLMHandler.__init__` performs no
credential check of its own — its external client falls back to
`OPENAI_API_KEY`, so construction fails only when both `GLHF_API_KEY` and
`OPENAI_API_KEY` are absent, and can succeed with the LLM-provider key
missing. -/
theorem c4_amended_construction_key_checks :
    (∀ env : Env,
      (WebSearch.init env).isOk = false ↔
        (env "BRAVE_API_KEY" = none ∨ env "BRAVE_API_KEY" = some "")) ∧
    (∀ env : Env,
      (LLMHandler.init env).isOk = false ↔
        (env "GLHF_API_KEY" = none ∧ env "OPENAI_API_KEY" = none)) := by
  constructor
  · intro env
    cases hb : env "BRAVE_API_KEY" with
    | none => simp [WebSearch.init, hb, Except.isOk, Except.toBool]
    | some k =>
      by_cases hk : k = "" <;>
        simp [WebSearch.init, hb, hk, Except.isOk, Except.toBool]
  · intro env
    cases hg : env "GLHF_API_KEY" with
    | none =>
      cases ho : env "OPENAI_API_KEY" with
      | none => simp [LLMHandler.init, asyncOpenAIInit, hg, ho, Except.isOk, Except.toBool]
      | some k => simp [LLMHandler.init, asyncOpenAIInit, hg, ho, Except.isOk, Except.toBool]
    | some k => simp [LLMHandler.init, asyncOpenAIInit, hg, Except.isOk, Except.toBool]

/-- The synthetic fact-checker response text of claim C2. -/
def c2Input : String :=
  "VERDICT: TRUE\nEXPLANATION: because X\nCONTEXT: extra\nREFERENCES:\n- http://a.example\n- http://b.example"

/-- Counterexample to claim C2: on the synthetic response text,
`parse_llm_response` does not populate every field as claimed — the inline
explanation and context are lost and the references keep their bullet
prefixes. -/
theorem c2_counterexample :
    ¬((parse_llm_response c2Input).verdict = "TRUE" ∧
      (parse_llm_response c2Input).explanation = "because X" ∧
      (parse_llm_response c2Input).context = "extra" ∧
      (parse_llm_response c2Input).references = ["http://a.example", "http://b.example"]) := by
  decide

/-- Claim C2 as amended: on the synthetic response text,
`parse_llm_response` extracts the inline verdict (`"TRUE"`) but leaves
`explanation` and `context` empty — content on the same line as the
`EXPLANATION:` / `CONTEXT:` headers is discarded, only subsequent lines are
accumulated — and collects the reference lines verbatim, bullet markers
included. -/
theorem c2_amended_parse_result :
    parse_llm_response c2Input =
      ⟨"TRUE", "", "", ["- http://a.example", "- http://b.example"], "", ""⟩ := by
  decide

lemma evidenceLoop_map_url (l : List SearchResult) (seen : List String) :
    (evidenceLoop l seen).map EvidencePoint.url = firstSeenDedupAux (l.map SearchResult.url) seen := by
  induction l generalizing seen with
  | nil => rfl
  | cons r rest ih =>
    by_cases h : r.url ∈ seen <;>
      simp [evidenceLoop, firstSeenDedupAux, h, ih]

lemma firstSeenDedupAux_count_of_mem_seen (u : String) (l seen : List String)
    (h : u ∈ seen) : (firstSeenDedupAux l seen).count u = 0 := by
  induction l generalizing seen with
  | nil => rfl
  | cons v rest ih =>
    by_cases hv : v ∈ seen
    · simpa [firstSeenDedupAux, hv] using ih seen h
    · have hne : v ≠ u := fun he => hv (he ▸ h)
      simp only [firstSeenDedupAux, if_neg hv]
      rw [List.count_cons_of_ne (fun he => hne he.symm)]
      exact ih (v :: seen) (List.mem_cons_of_mem v h)

lemma firstSeenDedupAux_count_of_not_seen (u : String) (l seen : List String)
    (hn : u ∉ seen) (hm : u ∈ l) : (firstSeenDedupAux l seen).count u = 1 := by
  induction l generalizing seen with
  | nil => cases hm
  | cons v rest ih =>
    by_cases hv : v ∈ seen
    · have hne : v ≠ u := fun he => hn (he ▸ hv)
      have hm' : u ∈ rest := by
        cases List.mem_cons.1 hm with
        | inl h => exact absurd h.symm hne
        | inr h => exact h
      simpa [firstSeenDedupAux, hv] using ih seen hn hm'
    · simp only [firstSeenDedupAux, if_neg hv]
      by_cases he : v = u
      · rw [he, List.count_cons_self,
          firstSeenDedupAux_count_of_mem_seen u rest (u :: seen) (List.mem_cons_self u seen)]
      · rw [List.count_cons_of_ne (fun h => he h.symm)]
        have hm' : u ∈ rest := by
          cases List.mem_cons.1 hm with
          | inl h => exact absurd h.symm he
          | inr h => exact h
        exact ih (v :: seen) (by simp [hn, Ne.symm he]) hm'

/-- Claim C8: the evidence list assembled in a role's `process_query`
output (the identical loop in `fact_checker.process_query` and
`research_assistant.process_query`) lists the URLs of its search results
deduplicated in first-seen order, and every URL that occurs among the
results — in particular a URL shared by two results — appears in it exactly
once. -/
theorem c8_evidence_dedup_first_seen (search_results : List SearchResult) :
    (process_query_evidence search_results).map EvidencePoint.url =
        firstSeenDedup (search_results.map SearchResult.url) ∧
      ∀ u ∈ search_results.map SearchResult.url,
        ((process_query_evidence search_results).map EvidencePoint.url).count u = 1 := by
  constructor
  · exact evidenceLoop_map_url search_results []
  · intro u hu
    simp only [process_query_evidence]
    rw [evidenceLoop_map_url search_results []]
    exact firstSeenDedupAux_count_of_not_seen u _ [] (List.not_mem_nil u) hu

/-- Witness for C8 on a result list in which two results share a URL: that
URL appears exactly once, and the evidence URLs are the first-seen
deduplication of the result URLs. -/
theorem c8_witness :
    (process_query_evidence
        [⟨"A - Wikipedia", "http://u1", "d1", 0, 1⟩,
         ⟨"B", "http://u1", "d2", 0, 1⟩,
         ⟨"C", "http://u2", "d3", 0, 1⟩]).map EvidencePoint.url =
      firstSeenDedup ["http://u1", "http://u1", "http://u2"] ∧
    ((process_query_evidence
        [⟨"A - Wikipedia", "http://u1", "d1", 0, 1⟩,
         ⟨"B", "http://u1", "d2", 0, 1⟩,
         ⟨"C", "http://u2", "d3", 0, 1⟩]).map EvidencePoint.url).count "http://u1" = 1 :=
  ⟨(c8_evidence_dedup_first_seen _).1,
    (c8_evidence_dedup_first_seen _).2 "http://u1" (by decide)⟩

/-- Counterexample to claim C3 (for the client built by
`WebSearch.__init__`, whose `max_retries` is 2): it is not the case that a
429 on every reached attempt index is followed by a retry — with 429 on
both attempts, the loop makes exactly 2 attempts, so the 429 seen on the
final attempt index 1 sleeps and then falls off the loop instead of
retrying. -/
theorem c3_counterexample :
    ¬(∀ (resp : ℕ → ReqOutcome) (i : ℕ),
      i < (make_request 2 resp).attempts →
      resp i = .httpError 429 →
      2 * (i + 1) ∈ (make_request 2 resp).sleeps ∧
        i + 1 < (make_request 2 resp).attempts) := by
  intro h
  have h2 := h (fun _ => .httpError 429) 1 (by decide) rfl
  exact absurd h2.2 (by decide)

/-- Claim C3 as amended, for `max_retries = 2` as configured by
`WebSearch.__init__`: an HTTP 429 on a reached attempt always causes a
sleep of `2 * (attemptIndex + 1)` seconds, and is followed by a retry only
while attempts remain — a 429 on the final attempt index sleeps and then
the loop ends, so `_make_request` implicitly returns `None` (neither a
result nor an exception); any non-429 HTTP error on a reached attempt
raises immediately, making that attempt the last. -/
theorem c3_amended_429_backoff (resp : ℕ → ReqOutcome) (i : ℕ)
    (hi : i < (make_request 2 resp).attempts) :
    (resp i = .httpError 429 →
      2 * (i + 1) ∈ (make_request 2 resp).sleeps ∧
      (i + 1 < 2 → i + 1 < (make_request 2 resp).attempts) ∧
      (i = 1 → (make_request 2 resp).result = .noneReturned)) ∧
    (∀ s : ℕ, resp i = .httpError s → s ≠ 429 →
      (make_request 2 resp).result = .raised (.httpErr s) ∧
        (make_request 2 resp).attempts = i + 1) := by
  rcases h0 : resp 0 with p0 | _ | s0
  · -- first attempt succeeds: only attempt 0 is reached
    have ha : (make_request 2 resp).attempts = 1 := by
      simp [make_request, requestLoop, h0]
    rw [ha] at hi
    interval_cases i
    refine ⟨fun h429 => absurd (h0.symm.trans h429) (by simp), ?_⟩
    intro s hs _
    rw [h0] at hs
    cases hs
  · -- first attempt times out: retried once (not the last attempt)
    rcases h1 : resp 1 with p1 | _ | s1
    · have ha : (make_request 2 resp).attempts = 2 := by
        simp [make_request, requestLoop, h0, h1]
      rw [ha] at hi
      interval_cases i
      · exact ⟨fun h429 => absurd (h0.symm.trans h429) (by simp),
          fun s hs _ => absurd (h0.symm.trans hs) (by simp)⟩
      · refine ⟨fun h429 => absurd (h1.symm.trans h429) (by simp), ?_⟩
        intro s hs _
        rw [h1] at hs
        cases hs
    · have ha : (make_request 2 resp).attempts = 2 := by
        simp [make_request, requestLoop, h0, h1]
      rw [ha] at hi
      interval_cases i
      · exact ⟨fun h429 => absurd (h0.symm.trans h429) (by simp),
          fun s hs _ => absurd (h0.symm.trans hs) (by simp)⟩
      · exact ⟨fun h429 => absurd (h1.symm.trans h429) (by simp),
          fun s hs _ => absurd (h1.symm.trans hs) (by simp)⟩
    · have ha : (make_request 2 resp).attempts = 2 := by
        by_cases hs1 : s1 = 429 <;>
          simp [make_request, requestLoop, h0, h1, hs1]
      rw [ha] at hi
      by_cases hs1 : s1 = 429
      · subst hs1
        interval_cases i
        · exact ⟨fun h429 => absurd (h0.symm.trans h429) (by simp),
            fun s hs _ => absurd (h0.symm.trans hs) (by simp)⟩
        · refine ⟨fun _ => ⟨?_, by omega, fun _ => ?_⟩, ?_⟩
          · simp [make_request, requestLoop, h0, h1]
          · simp [make_request, requestLoop, h0, h1]
          · intro s hs hne
            rw [h1] at hs
            cases hs
            exact absurd rfl hne
      · interval_cases i
        · exact ⟨fun h429 => absurd (h0.symm.trans h429) (by simp),
            fun s hs _ => absurd (h0.symm.trans hs) (by simp)⟩
        · refine ⟨fun h429 => ?_, ?_⟩
          · rw [h1] at h429
            cases h429
            exact absurd rfl hs1
          · intro s hs hne
            rw [h1] at hs
            cases hs
            constructor
            · simp [make_request, requestLoop, h0, h1, hs1]
            · exact ha
  · -- first attempt gets an HTTP error
    by_cases hs0 : s0 = 429
    · subst hs0
      rcases h1 : resp 1 with p1 | _ | s1
      · have ha : (make_request 2 resp).attempts = 2 := by
          simp [make_request, requestLoop, h0, h1]
        rw [ha] at hi
        interval_cases i
        · refine ⟨fun _ => ⟨?_, by omega, by omega⟩, ?_⟩
          · simp [make_request, requestLoop, h0, h1]
          · intro s hs hne
            rw [h0] at hs
            cases hs
            exact absurd rfl hne
        · exact ⟨fun h429 => absurd (h1.symm.trans h429) (by simp),
            fun s hs _ => absurd (h1.symm.trans hs) (by simp)⟩
      · have ha : (make_request 2 resp).attempts = 2 := by
          simp [make_request, requestLoop, h0, h1]
        rw [ha] at hi
        interval_cases i
        · refine ⟨fun _ => ⟨?_, by omega, by omega⟩, ?_⟩
          · simp [make_request, requestLoop, h0, h1]
          · intro s hs hne
            rw [h0] at hs
            cases hs
            exact absurd rfl hne
        · exact ⟨fun h429 => absurd (h1.symm.trans h429) (by simp),
            fun s hs _ => absurd (h1.symm.trans hs) (by simp)⟩
      · have ha : (make_request 2 resp).attempts = 2 := by
          by_cases hs1 : s1 = 429 <;>
            simp [make_request, requestLoop, h0, h1, hs1]
        rw [ha] at hi
        by_cases hs1 : s1 = 429
        · subst hs1
          interval_cases i
          · refine ⟨fun _ => ⟨?_, by omega, by omega⟩, ?_⟩
            · simp [make_request, requestLoop, h0, h1]
            · intro s hs hne
              rw [h0] at hs
              cases hs
              exact absurd rfl hne
          · refine ⟨fun _ => ⟨?_, by omega, fun _ => ?_⟩, ?_⟩
            · simp [make_request, requestLoop, h0, h1]
            · simp [make_request, requestLoop, h0, h1]
            · intro s hs hne
              rw [h1] at hs
              cases hs
              exact absurd rfl hne
        · interval_cases i
          · refine ⟨fun _ => ⟨?_, by omega, by omega⟩, ?_⟩
            · simp [make_request, requestLoop, h0, h1, hs1]
            · intro s hs hne
              rw [h0] at hs
              cases hs
              exact absurd rfl hne
          · refine ⟨fun h429 => ?_, ?_⟩
            · rw [h1] at h429
              cases h429
              exact absurd rfl hs1
            · intro s hs hne
              rw [h1] at hs
              cases hs
              constructor
              · simp [make_request, requestLoop, h0, h1, hs1]
              · exact ha
    · -- non-429 error on attempt 0: raised immediately, one attempt
      have ha : (make_request 2 resp).attempts = 1 := by
        simp [make_request, requestLoop, h0, hs0]
      rw [ha] at hi
      interval_cases i
      refine ⟨fun h429 => ?_, ?_⟩
      · rw [h0] at h429
        cases h429
        exact absurd rfl hs0
      · intro s hs hne
        rw [h0] at hs
        cases hs
        constructor
        · simp [make_request, requestLoop, h0, hs0]
        · exact ha

/-- Witness for C3 as amended: with a 429 on attempt 0 followed by a
success, the trace contains the backoff sleep of 2 seconds and a second
attempt is made; with a plain HTTP 500 on attempt 0, the call raises after
exactly one attempt. -/
theorem c3_witness :
    (2 * (0 + 1) ∈ (make_request 2 (fun _ => .httpError 429)).sleeps ∧
      (0 + 1 < 2 → 0 + 1 < (make_request 2 (fun _ => .httpError 429)).attempts)) ∧
    ((make_request 2 (fun _ => .httpError 500)).result = .raised (.httpErr 500) ∧
      (make_request 2 (fun _ => .httpError 500)).attempts = 0 + 1) :=
  ⟨⟨((c3_amended_429_backoff (fun _ => .httpError 429) 0 (by decide)).1 rfl).1,
    ((c3_amended_429_backoff (fun _ => .httpError 429) 0 (by decide)).1 rfl).2.1⟩,
    (c3_amended_429_backoff (fun _ => .httpError 500) 0 (by decide)).2 500 rfl (by decide)⟩

/-- The failure condition of claim C5: some step of the `try` body of
`search` raises — the request raises or returns `None`, or building a
source signal from a host-less URL raises `IndexError`. -/
def searchStepFails (max_retries : ℕ) (resp : ℕ → ReqOutcome) : Bool :=
  match (make_request max_retries resp).result with
  | .success payload => !(payload.web_results.all (fun r => (urlHostSegment r.url).isSome))
  | .raised _ => true
  | .noneReturned => true

/-- Claim C5: whenever any step of `search` fails (including exhausted
retries), it returns empty results together with metrics whose `error` is
set to the failure description, whose `cache_hit` stays `false` and whose
`total_time` is set to the elapsed wall-clock sample (hence `≥ 0`, not left
at its zero default), plus the default confidence `(0.0, ["No confidence
assessment"])`; every failure lands in the `except` branch, so no exception
escapes to the caller. -/
theorem c5_search_swallows_failures (query role_context : String) (currentYear : Int)
    (max_retries : ℕ) (resp : ℕ → ReqOutcome) (qtime : ℕ → ℚ) (elapsedTotal : ℚ)
    (helapsed : 0 ≤ elapsedTotal)
    (hfail : searchStepFails max_retries resp = true) :
    ∃ msg : String,
      search query role_context currentYear max_retries resp qtime elapsedTotal =
        ([], ⟨elapsedTotal, false, 0, some msg⟩, 0, ["No confidence assessment"]) ∧
      0 ≤ (search query role_context currentYear max_retries resp qtime elapsedTotal).2.1.total_time := by
  simp only [search, get_cached_results, searchStepFails] at *
  cases hres : (make_request max_retries resp).result with
  | success payload =>
    rw [hres] at hfail
    simp only [Bool.not_eq_true'] at hfail
    refine ⟨"IndexError: list index out of range", ?_, ?_⟩
    · simp [hfail, searchFailure]
    · simp [hfail, searchFailure, helapsed]
  | raised e =>
    refine ⟨failureDescription e, ?_, ?_⟩
    · simp [searchFailure]
    · simp [searchFailure, helapsed]
  | noneReturned =>
    refine ⟨"AttributeError: NoneType object has no attribute get", ?_, ?_⟩
    · simp [searchFailure]
    · simp [searchFailure, helapsed]

/-- Witness for C5: timeouts on every attempt exhaust the retries, and the
concrete call returns the swallowed-failure tuple with the elapsed time
recorded. -/
theorem c5_witness :
    ∃ msg : String,
      search "q" "ctx" 2025 2 (fun _ => .timeout) (fun _ => 0) 5 =
        ([], ⟨5, false, 0, some msg⟩, 0, ["No confidence assessment"]) ∧
      0 ≤ (search "q" "ctx" 2025 2 (fun _ => .timeout) (fun _ => 0) 5).2.1.total_time :=
  c5_search_swallows_failures "q" "ctx" 2025 2 (fun _ => .timeout) (fun _ => 0) 5
    (by norm_num) (by decide)

lemma scanHeader_eq_none_of_not_infix (cap : List Char → Option (List Char))
    (lit : List Char) (text : List Char) (h : listIsInfixOf lit text = false) :
    scanHeader cap lit text = none := by
  induction text with
  | nil => rfl
  | cons c rest ih =>
    simp only [listIsInfixOf, Bool.or_eq_false_iff] at h
    simp only [scanHeader, matchHeaderAt, h.1, Bool.false_eq_true, if_false]
    exact ih h.2

/-- Counterexample to claim C7: on the empty input, `format_response` does
not return the `<pre>`-wrapped raw text — it returns the structured output
with the fallback verdict `UNKNOWN`. -/
theorem c7_counterexample :
    format_response "" = "<div style=\"margin: 16px 0;\"><strong>UNKNOWN</strong></div>" ∧
      format_response "" ≠ "<pre></pre>" := by
  decide

/-- Claim C7 as amended: `format_response` is total on strings — every
extraction step of its `try` body is, so nothing can raise past its
boundary and the `<pre>` fallback is unreachable — and on malformed input
(none of the section headers present, e.g. the empty string) it returns the
structured output with verdict `UNKNOWN`, not the raw text wrapped
verbatim. -/
theorem c7_amended_format_malformed (raw : String)
    (h1 : isSubstr "VERDICT:" raw = false)
    (h2 : isSubstr "CONFIDENCE LEVEL:" raw = false)
    (h3 : isSubstr "EXPLANATION:" raw = false)
    (h4 : isSubstr "CONTEXT:" raw = false)
    (h5 : isSubstr "REFERENCES:" raw = false) :
    format_response raw = "<div style=\"margin: 16px 0;\"><strong>UNKNOWN</strong></div>" := by
  simp only [isSubstr] at h1 h2 h3 h4 h5
  have hv : reSearchHeader "VERDICT:" raw = none := by
    simp [reSearchHeader, scanHeader_eq_none_of_not_infix _ _ _ h1]
  have hc : reSearchHeader "CONFIDENCE LEVEL:" raw = none := by
    simp [reSearchHeader, scanHeader_eq_none_of_not_infix _ _ _ h2]
  have he : reSearchHeader "EXPLANATION:" raw = none := by
    simp [reSearchHeader, scanHeader_eq_none_of_not_infix _ _ _ h3]
  have hx : reSearchHeader "CONTEXT:" raw = none := by
    simp [reSearchHeader, scanHeader_eq_none_of_not_infix _ _ _ h4]
  have hr : reSearchHeaderDotall "REFERENCES:" raw = none := by
    simp [reSearchHeaderDotall, scanHeader_eq_none_of_not_infix _ _ _ h5]
  simp only [format_response, hv, hc, he, hx, hr]
  split_ifs with hf
  · exact absurd hf (by decide)
  · decide

/-- Witness for C7 as amended: a plain text without any header is rendered
as the structured `UNKNOWN` output. -/
theorem c7_witness :
    isSubstr "VERDICT:" "just some plain text" = false ∧
      format_response "just some plain text" =
        "<div style=\"margin: 16px 0;\"><strong>UNKNOWN</strong></div>" :=
  ⟨by decide,
    c7_amended_format_malformed "just some plain text"
      (by decide) (by decide) (by decide) (by decide) (by decide)⟩

lemma list_sum_sq_sub (l : List ℝ) (m : ℝ) :
    (l.map (fun x => (x - m) ^ 2)).sum =
      (l.map (fun x => x ^ 2)).sum - 2 * m * l.sum + l.length * m ^ 2 := by
  induction l with
  | nil => simp
  | cons a t ih =>
    simp only [List.map_cons, List.sum_cons, List.length_cons, ih]
    push_cast
    ring

lemma list_sum_sq_le_sum (l : List ℝ) (h0 : ∀ x ∈ l, 0 ≤ x) (h1 : ∀ x ∈ l, x ≤ 1) :
    (l.map (fun x => x ^ 2)).sum ≤ l.sum := by
  have h := List.sum_le_sum (l := l) (f := fun x => x ^ 2) (g := fun x => x)
    (fun x hx => by
      dsimp only
      nlinarith [h0 x hx, h1 x hx])
  simpa using h

/-- Popoviciu-style bound: for list entries in `[0, 1]`, the sum of squared
deviations from the mean is at most `n / 4`, so the sample variance of at
least two entries is at most `(n/4)/(n-1) ≤ 1`. -/
lemma sampleVariance_le_one (l : List ℝ) (h0 : ∀ x ∈ l, 0 ≤ x)
    (h1 : ∀ x ∈ l, x ≤ 1) (h2 : 2 ≤ l.length) :
    (l.map (fun x => (x - l.sum / l.length) ^ 2)).sum / ((l.length : ℝ) - 1) ≤ 1 := by
  set n : ℝ := (l.length : ℝ) with hn
  have hn2 : (2 : ℝ) ≤ n := by
    rw [hn]
    exact_mod_cast h2
  have hn0 : n ≠ 0 := by linarith
  set m : ℝ := l.sum / n with hm
  have hsum : l.sum = n * m := by
    rw [hm]
    field_simp
  have hS : (l.map (fun x => (x - m) ^ 2)).sum ≤ n / 4 := by
    have hexp := list_sum_sq_sub l m
    rw [← hn] at hexp
    have hsq := list_sum_sq_le_sum l h0 h1
    have hmm : m - m ^ 2 ≤ 1 / 4 := by nlinarith [sq_nonneg (m - 1 / 2)]
    have hnpos : (0 : ℝ) ≤ n := by linarith
    have hmul : n * (m - m ^ 2) ≤ n * (1 / 4) :=
      mul_le_mul_of_nonneg_left hmm hnpos
    nlinarith [hexp, hsq, hsum]
  rw [div_le_one (by linarith : (0 : ℝ) < n - 1)]
  linarith

lemma confidence_combination_in_unit (a c k : ℝ)
    (ha0 : 0 ≤ a) (ha1 : a ≤ 1) (hc0 : 0 ≤ c) (hc1 : c ≤ 1)
    (hk0 : 0 ≤ k) (hk1 : k ≤ 1) :
    0 ≤ a * 0.4 + c * 0.3 + k * 0.3 ∧ a * 0.4 + c * 0.3 + k * 0.3 ≤ 1 := by
  constructor <;> nlinarith

/-- Claim C1: for every non-empty list of source signals (whose per-source
quality scores are always valid, i.e. in `[0,1]`), the score component of
`calculate_confidence(sources)` lies in `[0,1]` — it never exceeds 1 nor
falls below 0 (in exact arithmetic the weighted sum is bounded without any
explicit clamp: each term is at most its weight and the sample standard
deviation of scores in `[0,1]` is at most 1). -/
theorem c1_confidence_score_in_unit_interval (currentYear : Int)
    (sources : List SourceDict) (h : sources ≠ []) :
    0 ≤ (calculate_confidence currentYear sources).1 ∧
      (calculate_confidence currentYear sources).1 ≤ 1 := by
  rcases sources with _ | ⟨s, rest⟩
  · exact absurd rfl h
  simp only [calculate_confidence]
  set l : List ℝ :=
    (s :: rest).map (fun src => ((assess_source_quality currentYear src : ℚ) : ℝ)) with hl
  have h0 : ∀ x ∈ l, 0 ≤ x := by
    intro x hx
    rw [hl] at hx
    obtain ⟨src, _, rfl⟩ := List.mem_map.1 hx
    have := (assess_source_quality_bounds currentYear src).1
    exact_mod_cast this
  have h1 : ∀ x ∈ l, x ≤ 1 := by
    intro x hx
    rw [hl] at hx
    obtain ⟨src, _, rfl⟩ := List.mem_map.1 hx
    have := (assess_source_quality_bounds currentYear src).2
    exact_mod_cast this
  have hlen : l.length = rest.length + 1 := by
    rw [hl]
    simp
  have hlpos : (0 : ℝ) < (l.length : ℝ) := by
    rw [hlen]
    positivity
  have havg0 : 0 ≤ l.sum / (l.length : ℝ) :=
    div_nonneg (List.sum_nonneg h0) (le_of_lt hlpos)
  have havg1 : l.sum / (l.length : ℝ) ≤ 1 := by
    rw [div_le_one hlpos]
    have := List.sum_le_card_nsmul l 1 h1
    simpa using this
  have hcons : 0 ≤ (if 1 < l.length then 1 - stdevR l else (0.5 : ℝ)) ∧
      (if 1 < l.length then 1 - stdevR l else (0.5 : ℝ)) ≤ 1 := by
    split_ifs with hc
    · have hv : (l.map (fun x => (x - l.sum / l.length) ^ 2)).sum /
          ((l.length : ℝ) - 1) ≤ 1 :=
        sampleVariance_le_one l h0 h1 (by omega)
      have hsqrt1 : stdevR l ≤ 1 := by
        rw [stdevR]
        exact Real.sqrt_le_one.mpr hv
      have hsqrt0 : 0 ≤ stdevR l := Real.sqrt_nonneg _
      constructor <;> linarith
    · norm_num
  have hcnt : 0 ≤ min (1 : ℝ) (((s :: rest).length : ℝ) / 5) ∧
      min (1 : ℝ) (((s :: rest).length : ℝ) / 5) ≤ 1 := by
    constructor
    · apply le_min (by norm_num)
      positivity
    · exact min_le_left _ _
  exact confidence_combination_in_unit _ _ _ havg0 havg1 hcons.1 hcons.2 hcnt.1 hcnt.2

/-- Witness for C1 at a concrete single-source list. -/
theorem c1_witness :
    0 ≤ (calculate_confidence 2025 [⟨some "example.edu", some 2024, some "academic"⟩]).1 ∧
      (calculate_confidence 2025 [⟨some "example.edu", some 2024, some "academic"⟩]).1 ≤ 1 :=
  c1_confidence_score_in_unit_interval 2025 _ (by simp)

end NeuralNexus
